import Mathlib

/-! Verification of the NMDPRA inventory-management valuation core.

The definitions below are a shallow embedding of the Python source:
`app/report/utils.py` (`calculate_periodic_wac_valuation`) and
`app/report/views.py` (`generate_report`, `generate_report_include_weekends`).
Timestamps, ids and stock quantities are modelled as `Int`; `Decimal`
money amounts are modelled as `Rat` (exact arithmetic).  Database rows
become list values: the ledger query "all entries for an item with
timestamp <= end, ascending by timestamp" becomes a filter over the
item's ledger list, which is kept in store order. -/

deriving instance DecidableEq for Except

namespace IMS

/-- Transaction kinds (the `transaction_type` strings of the source). -/
inductive TType where
  | initial
  | purchase
  | issue
  | price_update
  | adjustment
  deriving DecidableEq, Repr

/-- One row of the ledger query in `calculate_periodic_wac_valuation`
(`utils.py` lines 24-30): quantity, unit price, transaction type,
timestamp, and the originating request's location. -/
structure Txn where
  quantity : Int
  unit_price : Option Rat
  ttype : TType
  timestamp : Int
  location : Option String
  deriving DecidableEq, Repr

/-- Output record of the valuation engine (`utils.py` lines 92-102). -/
structure ValRecord where
  opening_stock : Int
  purchases : Int
  adjustments : Int
  hq_issues : Int
  jabi_issues : Int
  closing_stock : Int
  unit_price : Rat
  total_value : Rat
  cogs : Rat
  deriving DecidableEq, Repr

/-- The ledger query (`utils.py` lines 15-30): every entry of the item
with `timestamp <= end_date`.  The store returns entries ascending by
timestamp; the per-item ledger list is kept in store order, so the
filter preserves that order. -/
def fetch_entries (ledger : List Txn) (end_date : Int) : List Txn :=
  ledger.filter fun t => t.timestamp ≤ end_date

/-- `txns_before`: entries strictly before the window start (`utils.py` line 37). -/
def txns_before (transactions : List Txn) (start_date : Int) : List Txn :=
  transactions.filter fun t => t.timestamp < start_date

/-- `txns_during`: entries at or after the window start (`utils.py` line 51). -/
def txns_during (transactions : List Txn) (start_date : Int) : List Txn :=
  transactions.filter fun t => start_date ≤ t.timestamp

/-- Boolean tests for the `transaction_type` string comparisons of the
source, written structurally so that they compute. -/
def TType.isInitial : TType → Bool
  | .initial => true
  | _ => false

/-- Test for `transaction_type == 'purchase'`. -/
def TType.isPurchase : TType → Bool
  | .purchase => true
  | _ => false

/-- Test for `transaction_type == 'issue'`. -/
def TType.isIssue : TType → Bool
  | .issue => true
  | _ => false

/-- Test for `transaction_type == 'adjustment'`. -/
def TType.isAdjustment : TType → Bool
  | .adjustment => true
  | _ => false

/-- Test for `transaction_type == 'price_update'`. -/
def TType.isPriceUpdate : TType → Bool
  | .price_update => true
  | _ => false

/-- Kinds whose entries can carry an authoritative price in the
opening-price scan (`utils.py` line 42). -/
def priceKind : TType → Bool
  | .initial | .purchase | .price_update => true
  | _ => false

/-- Test for `t.location == loc` on the optional request location. -/
def locIs (loc : String) : Option String → Bool
  | some l => l = loc
  | none => false

/-- Python `Decimal(t.unit_price or '0.0')`: a missing price counts as 0. -/
def priceD (t : Txn) : Rat := t.unit_price.getD 0

/-- Condition of the opening-price scan (`utils.py` line 42): the kind is
initial, purchase or price_update and the unit price is present. -/
def priceSourced (t : Txn) : Bool := priceKind t.ttype && t.unit_price.isSome

/-- Scan of `reversed(txns_before)` for the last known price
(`utils.py` lines 40-44).  Returns 0 when no entry qualifies, which also
covers the empty-`txns_before` case, where the source leaves the initial
value `Decimal('0.0')` untouched. -/
def last_known_price (txns_b : List Txn) : Rat :=
  match txns_b.reverse.find? priceSourced with
  | some t => priceD t
  | none => 0

/-- Opening quantity: signed sum over all entries before the window
(`utils.py` line 47; 0 for an empty list, as in the source where the
guarded branch is skipped). -/
def opening_stock_qty (txns_b : List Txn) : Int :=
  (txns_b.map (fun t => t.quantity)).sum

/-- Opening value = opening quantity x last known price (`utils.py` line 48). -/
def opening_stock_value (txns_b : List Txn) : Rat :=
  (opening_stock_qty txns_b : Rat) * last_known_price txns_b

/-- Pre-pass over the `initial` entries inside the window (`utils.py`
lines 58-60): their value is added to the cost of goods available once
here, before the main loop adds it a second time. -/
def initial_stock_value (txns_d : List Txn) : Rat :=
  ((txns_d.filter fun t => t.ttype.isInitial).map
    (fun t => (t.quantity : Rat) * priceD t)).sum

/-- One step of the main replay loop (`utils.py` lines 62-69): purchases
and initial stock add value and quantity; a price update re-prices the
entire current stock, discarding the prior cost basis; other kinds leave
the state unchanged. -/
def wacStep (s : Rat × Int) (t : Txn) : Rat × Int :=
  match t.ttype with
  | .initial | .purchase => (s.1 + (t.quantity : Rat) * priceD t, s.2 + t.quantity)
  | .price_update => ((s.2 : Rat) * priceD t, s.2)
  | _ => s

/-- Cost of goods available and quantity available after replaying the
window (`utils.py` lines 54-69). -/
def wac_state (transactions : List Txn) (start_date : Int) : Rat × Int :=
  (txns_during transactions start_date).foldl wacStep
    (opening_stock_value (txns_before transactions start_date)
       + initial_stock_value (txns_during transactions start_date),
     opening_stock_qty (txns_before transactions start_date))

/-- Signed quantity total of the entries of `txns` matching `p`. -/
def qsum (txns : List Txn) (p : Txn → Bool) : Int :=
  ((txns.filter p).map (fun t => t.quantity)).sum

/-- Python `not t.location`: true for a missing or empty location string. -/
def locFalsy : Option String → Bool
  | none => true
  | some s => s = ""

/-- Faithful embedding of `calculate_periodic_wac_valuation` from
`app/report/utils.py` (lines 32-102), applied to the already-fetched
ascending transaction list of one item (the result of `fetch_entries`). -/
def calculate_periodic_wac_valuation (transactions : List Txn) (start_date : Int) : ValRecord :=
  let txns_b := txns_before transactions start_date
  let txns_d := txns_during transactions start_date
  let lkp := last_known_price txns_b
  let st := wac_state transactions start_date
  let qty_available := st.2
  let period_wac := if qty_available > 0 then st.1 / (qty_available : Rat) else lkp
  let purchases_qty := qsum txns_d (fun t => t.ttype.isPurchase)
  let initial_qty_during := qsum txns_d (fun t => t.ttype.isInitial)
  let total_additions_qty := purchases_qty + initial_qty_during
  let hq_issues := abs (qsum txns_d
    (fun t => t.ttype.isIssue && locIs "Headquarters" t.location))
  let jabi_issues := abs (qsum txns_d
    (fun t => t.ttype.isIssue && locIs "Jabi" t.location))
  let other_issues := abs (qsum txns_d
    (fun t => t.ttype.isIssue && locFalsy t.location))
  let total_issued_qty := hq_issues + jabi_issues + other_issues
  let adjustments := qsum txns_d (fun t => t.ttype.isAdjustment)
  let closing_stock_qty := qty_available - total_issued_qty + adjustments
  let closing_stock_value := (closing_stock_qty : Rat) * period_wac
  let cogs := (total_issued_qty : Rat) * period_wac
  { opening_stock := opening_stock_qty txns_b
    purchases := total_additions_qty
    adjustments := adjustments
    hq_issues := hq_issues
    jabi_issues := jabi_issues
    closing_stock := closing_stock_qty
    unit_price := period_wac
    total_value := closing_stock_value
    cogs := cogs }

/-- Valuation of one item's ledger over a reporting window: fetch then replay. -/
def valuation_over_window (ledger : List Txn) (start_date end_date : Int) : ValRecord :=
  calculate_periodic_wac_valuation (fetch_entries ledger end_date) start_date

/-- String facts used to evaluate the location buckets. -/
theorem hq_ne_jabi : ("Headquarters" = "Jabi") = False := by simp

/-- Headquarters is not the empty location string. -/
theorem hq_ne_empty : ("Headquarters" = "") = False := by simp

/-- Jabi is not Headquarters. -/
theorem jabi_ne_hq : ("Jabi" = "Headquarters") = False := by simp

/-- Jabi is not the empty location string. -/
theorem jabi_ne_empty : ("Jabi" = "") = False := by simp

/-- The empty location string is not Headquarters. -/
theorem empty_ne_hq : ("" = "Headquarters") = False := by simp

/-- The empty location string is not Jabi. -/
theorem empty_ne_jabi : ("" = "Jabi") = False := by simp

/-- Value total (quantity x unit price) of the entries of `txns` matching `p`. -/
def vsum (txns : List Txn) (p : Txn → Bool) : Rat :=
  ((txns.filter p).map (fun t => (t.quantity : Rat) * priceD t)).sum

/-- Kinds treated as stock additions by the replay loop. -/
def addKind (t : Txn) : Bool := t.ttype.isInitial || t.ttype.isPurchase

theorem initial_stock_value_eq_vsum (l : List Txn) :
    initial_stock_value l = vsum l (fun t => t.ttype.isInitial) := rfl

theorem qsum_nil (p : Txn → Bool) : qsum [] p = 0 := rfl

theorem qsum_cons (t : Txn) (T : List Txn) (p : Txn → Bool) :
    qsum (t :: T) p = (if p t then t.quantity else 0) + qsum T p := by
  cases h : p t <;> simp [qsum, List.filter_cons, h]

theorem vsum_cons (t : Txn) (T : List Txn) (p : Txn → Bool) :
    vsum (t :: T) p = (if p t then (t.quantity : Rat) * priceD t else 0) + vsum T p := by
  cases h : p t <;> simp [vsum, List.filter_cons, h]

/-- The quantity component of the replay fold: only additions move it. -/
theorem wac_foldl_qty (T : List Txn) :
    ∀ (c : Rat) (q : Int), (T.foldl wacStep (c, q)).2 = q + qsum T addKind := by
  induction T with
  | nil => simp [qsum]
  | cons t T ih =>
    intro c q
    rcases t with ⟨tq, tp, tt, ts, tl⟩
    cases tt <;>
      simp [wacStep, qsum_cons, addKind, TType.isInitial, TType.isPurchase, ih] <;>
      omega

/-- Without price updates the cost component of the replay fold is a
plain accumulation of the addition entries. -/
theorem wac_foldl_cost_no_pu (T : List Txn) :
    ∀ (c : Rat) (q : Int), (∀ t ∈ T, ¬ t.ttype = TType.price_update) →
      (T.foldl wacStep (c, q)).1 = c + vsum T addKind := by
  induction T with
  | nil => intro c q _; simp [vsum]
  | cons t T ih =>
    intro c q h
    have ht : ¬ t.ttype = TType.price_update := h t (by simp)
    have hT : ∀ u ∈ T, ¬ u.ttype = TType.price_update := fun u hu => h u (by simp [hu])
    rcases t with ⟨tq, tp, tt, ts, tl⟩
    cases tt
    case price_update => exact absurd rfl ht
    all_goals
      simp only [List.foldl_cons, wacStep, ih _ _ hT, vsum_cons, addKind,
        TType.isInitial, TType.isPurchase]
    all_goals simp
    all_goals try ring

theorem vsum_addKind_split (T : List Txn) :
    vsum T addKind
      = vsum T (fun t => t.ttype.isInitial) + vsum T (fun t => t.ttype.isPurchase) := by
  induction T with
  | nil => simp [vsum]
  | cons t T ih =>
    rcases t with ⟨tq, tp, tt, ts, tl⟩
    cases tt <;>
      simp [vsum_cons, addKind, TType.isInitial, TType.isPurchase, ih] <;> ring

theorem qsum_addKind_split (T : List Txn) :
    qsum T addKind
      = qsum T (fun t => t.ttype.isInitial) + qsum T (fun t => t.ttype.isPurchase) := by
  induction T with
  | nil => simp [qsum]
  | cons t T ih =>
    rcases t with ⟨tq, tp, tt, ts, tl⟩
    cases tt <;>
      simp [qsum_cons, addKind, TType.isInitial, TType.isPurchase, ih] <;> omega

/-- The ledger of the spec scenario in claim C1: initial stock of 100 at
price 10 on Jan 1, a purchase of 50 at price 12 on Jan 15, and an issue
of 30 to Headquarters on Jan 20 (dates as day numbers). -/
def demoLedger : List Txn :=
  [⟨100, some 10, .initial, 1, none⟩,
   ⟨50, some 12, .purchase, 15, none⟩,
   ⟨-30, none, .issue, 20, some "Headquarters"⟩]

/-- C1: on the scenario ledger with window Jan 1 to Jan 31 the valuation
returns opening_stock 0, purchases 150, hq_issues 30, closing_stock 120
and period WAC 2600/150; and in general, when no price update occurs in
the window, every `initial` entry inside the window contributes its
quantity x unit price to the cost of goods available twice (once from
the pre-pass and once from the main loop) but its quantity to the
quantity available only once. -/
theorem initial_entries_double_count_scenario :
    (calculate_periodic_wac_valuation (fetch_entries demoLedger 31) 1
      = { opening_stock := 0, purchases := 150, adjustments := 0,
          hq_issues := 30, jabi_issues := 0, closing_stock := 120,
          unit_price := 2600 / 150, total_value := 120 * (2600 / 150),
          cogs := 30 * (2600 / 150) })
    ∧ ∀ (T : List Txn) (s : Int),
        (∀ t ∈ txns_during T s, ¬ t.ttype = TType.price_update) →
        wac_state T s
          = (opening_stock_value (txns_before T s)
               + 2 * vsum (txns_during T s) (fun t => t.ttype.isInitial)
               + vsum (txns_during T s) (fun t => t.ttype.isPurchase),
             opening_stock_qty (txns_before T s)
               + (qsum (txns_during T s) (fun t => t.ttype.isInitial)
                  + qsum (txns_during T s) (fun t => t.ttype.isPurchase))) := by
  constructor
  · norm_num [calculate_periodic_wac_valuation, fetch_entries, txns_before, txns_during,
      last_known_price, opening_stock_qty, opening_stock_value, initial_stock_value,
      wac_state, wacStep, qsum, priceD, priceKind, locFalsy, locIs, TType.isInitial,
      TType.isPurchase, TType.isIssue, TType.isAdjustment, ValRecord.mk.injEq, demoLedger,
      hq_ne_jabi, hq_ne_empty, List.filter_cons, List.foldl_cons, List.foldl_nil,
      List.find?]
  · intro T s h
    rw [wac_state, Prod.ext_iff]
    refine ⟨?_, ?_⟩
    · rw [wac_foldl_cost_no_pu _ _ _ h]
      simp only [initial_stock_value_eq_vsum, vsum_addKind_split]
      ring
    · rw [wac_foldl_qty]
      simp only [qsum_addKind_split]

/-- Witness for C1: the double-count identity instantiated on the
scenario ledger, whose window contains no price update. -/
theorem initial_entries_double_count_scenario_witness :
    wac_state (fetch_entries demoLedger 31) 1
      = (opening_stock_value (txns_before (fetch_entries demoLedger 31) 1)
           + 2 * vsum (txns_during (fetch_entries demoLedger 31) 1)
               (fun t => t.ttype.isInitial)
           + vsum (txns_during (fetch_entries demoLedger 31) 1)
               (fun t => t.ttype.isPurchase),
         opening_stock_qty (txns_before (fetch_entries demoLedger 31) 1)
           + (qsum (txns_during (fetch_entries demoLedger 31) 1)
                (fun t => t.ttype.isInitial)
              + qsum (txns_during (fetch_entries demoLedger 31) 1)
                  (fun t => t.ttype.isPurchase))) :=
  initial_entries_double_count_scenario.2 (fetch_entries demoLedger 31) 1 (by decide)

/-- Ledger for the price-update scenario of claim C6: 100 units at price
5 before the window, then a mid-period price update to 8 with no
quantity change. -/
def puLedger : List Txn :=
  [⟨100, some 5, .initial, 1, none⟩,
   ⟨0, some 8, .price_update, 15, none⟩]

/-- C6: a `price_update` entry processed inside the window resets the
running cost of goods available to the quantity available times the new
unit price, discarding the prior cost basis, and leaves the quantity
available unchanged; on the scenario of 100 units at WAC 5 followed by a
mid-period price update to 8, the replay state becomes a cost basis of
800 over the unchanged 100 units. -/
theorem price_update_resets_cost_basis :
    (∀ (s : Rat × Int) (t : Txn), t.ttype = TType.price_update →
        wacStep s t = ((s.2 : Rat) * priceD t, s.2))
    ∧ wac_state (fetch_entries puLedger 31) 10 = (800, 100) := by
  constructor
  · intro s t ht
    rcases t with ⟨tq, tp, tt, ts, tl⟩
    cases tt <;> simp_all [wacStep]
  · norm_num [wac_state, txns_during, txns_before, fetch_entries, puLedger,
      opening_stock_value, opening_stock_qty, initial_stock_value, last_known_price,
      wacStep, priceD, priceKind, TType.isInitial, List.filter_cons, List.foldl_cons,
      List.foldl_nil, List.find?, Prod.ext_iff]

/-- Witness for C6: the reset equation applied to the concrete state of
100 units costing 500 and a price update to 8. -/
theorem price_update_resets_cost_basis_witness :
    wacStep ((500 : Rat), (100 : Int)) ⟨0, some 8, .price_update, 15, none⟩
      = (((100 : Int) : Rat) * priceD ⟨0, some 8, .price_update, 15, none⟩, 100) :=
  price_update_resets_cost_basis.1 (500, 100) ⟨0, some 8, .price_update, 15, none⟩ rfl

/-- C7: an item with no ledger entries up to the window end is valued as
the all-zero record with unit price 0 (and, the function being total, no
error is ever raised). -/
theorem empty_ledger_zero_valuation (L : List Txn) (s e : Int)
    (h : ∀ t ∈ L, ¬ t.timestamp ≤ e) :
    calculate_periodic_wac_valuation (fetch_entries L e) s
      = { opening_stock := 0, purchases := 0, adjustments := 0,
          hq_issues := 0, jabi_issues := 0, closing_stock := 0,
          unit_price := 0, total_value := 0, cogs := 0 } := by
  have hfe : fetch_entries L e = [] := by
    rw [fetch_entries, List.filter_eq_nil_iff]
    intro t ht
    simpa using h t ht
  rw [hfe]
  norm_num [calculate_periodic_wac_valuation, txns_before, txns_during,
    last_known_price, opening_stock_qty, opening_stock_value, initial_stock_value,
    wac_state, qsum, ValRecord.mk.injEq]

/-- Witness for C7: a one-entry ledger whose entry lies after the window
end is valued as the zero record. -/
theorem empty_ledger_zero_valuation_witness :
    calculate_periodic_wac_valuation (fetch_entries [⟨5, some 2, .purchase, 10, none⟩] 5) 3
      = { opening_stock := 0, purchases := 0, adjustments := 0,
          hq_issues := 0, jabi_issues := 0, closing_stock := 0,
          unit_price := 0, total_value := 0, cogs := 0 } :=
  empty_ledger_zero_valuation [⟨5, some 2, .purchase, 10, none⟩] 3 5 (by decide)

/-- The reversed scan picks exactly the last entry of the filtered
before-list: `find?` over the reversal is `getLast?` of the filter. -/
theorem last_known_price_getLast (l : List Txn) :
    last_known_price l
      = match (l.filter priceSourced).getLast? with
        | some t => priceD t
        | none => 0 := by
  have h : l.reverse.find? priceSourced = (l.filter priceSourced).getLast? := by
    calc l.reverse.find? priceSourced
        = (l.reverse.filter priceSourced).head? := (List.filter_head? _ _).symm
      _ = ((l.filter priceSourced).reverse).head? := by rw [List.filter_reverse]
      _ = (l.filter priceSourced).getLast? := List.head?_reverse _
  rw [last_known_price, h]

/-- In a list sorted by timestamp, every element's timestamp is bounded
by the timestamp of the last element. -/
theorem timestamp_le_getLast {l : List Txn}
    (hp : l.Pairwise (fun a b => a.timestamp ≤ b.timestamp)) :
    ∀ {t : Txn}, l.getLast? = some t → ∀ a ∈ l, a.timestamp ≤ t.timestamp := by
  induction l with
  | nil => intro t h; simp at h
  | cons x xs ih =>
    intro t hlast a ha
    cases xs with
    | nil =>
      simp at hlast ha
      simp [ha, hlast]
    | cons y ys =>
      rw [List.getLast?_cons_cons] at hlast
      rcases List.mem_cons.mp ha with rfl | ha2
      · exact (List.pairwise_cons.mp hp).1 t (List.mem_of_mem_getLast? hlast)
      · exact ih (List.pairwise_cons.mp hp).2 hlast a ha2

/-- C5: the opening balance is reconstructed from exactly the entries
strictly before the window start: the opening quantity is the signed sum
of their quantities over all kinds, the opening unit price is the unit
price of the latest such entry of kind initial, purchase or price_update
whose price is present (0 when none exists), the opening value is the
opening quantity times the opening price, and all three are zero when no
entry precedes the window. -/
theorem opening_balance_reconstruction (T : List Txn) (s : Int)
    (hsorted : T.Pairwise (fun a b => a.timestamp ≤ b.timestamp)) :
    (calculate_periodic_wac_valuation T s).opening_stock
        = ((T.filter (fun t => t.timestamp < s)).map (fun t => t.quantity)).sum
    ∧ opening_stock_value (txns_before T s)
        = (opening_stock_qty (txns_before T s) : Rat) * last_known_price (txns_before T s)
    ∧ (∀ t, ((txns_before T s).filter priceSourced).getLast? = some t →
        last_known_price (txns_before T s) = priceD t
          ∧ ∀ u ∈ (txns_before T s).filter priceSourced, u.timestamp ≤ t.timestamp)
    ∧ (((txns_before T s).filter priceSourced).getLast? = none →
        last_known_price (txns_before T s) = 0)
    ∧ (txns_before T s = [] →
        opening_stock_qty (txns_before T s) = 0
          ∧ last_known_price (txns_before T s) = 0
          ∧ opening_stock_value (txns_before T s) = 0) := by
  refine ⟨rfl, rfl, ?_, ?_, ?_⟩
  · intro t ht
    refine ⟨by rw [last_known_price_getLast, ht], ?_⟩
    intro u hu
    have hpb : (txns_before T s).Pairwise (fun a b => a.timestamp ≤ b.timestamp) :=
      hsorted.sublist (List.filter_sublist T)
    have hpf : ((txns_before T s).filter priceSourced).Pairwise
        (fun a b => a.timestamp ≤ b.timestamp) :=
      hpb.sublist (List.filter_sublist _)
    exact timestamp_le_getLast hpf ht u hu
  · intro h
    rw [last_known_price_getLast, h]
  · intro h
    refine ⟨?_, ?_, ?_⟩ <;>
      simp [h, opening_stock_value, opening_stock_qty, last_known_price]

/-- Witness for C5: the reconstruction applied to the sorted scenario
ledger with a window starting on day 16. -/
theorem opening_balance_reconstruction_witness :
    (calculate_periodic_wac_valuation demoLedger 16).opening_stock
      = ((demoLedger.filter (fun t => t.timestamp < 16)).map (fun t => t.quantity)).sum :=
  (opening_balance_reconstruction demoLedger 16 (by decide)).1

theorem isIssue_iff (tt : TType) : tt.isIssue = true ↔ tt = .issue := by
  cases tt <;> simp [TType.isIssue]

theorem isPriceUpdate_iff (tt : TType) : tt.isPriceUpdate = true ↔ tt = .price_update := by
  cases tt <;> simp [TType.isPriceUpdate]

theorem qsum_cons_pos {t : Txn} {p : Txn → Bool} (T : List Txn) (h : p t = true) :
    qsum (t :: T) p = t.quantity + qsum T p := by
  simp [qsum, List.filter_cons, h]

theorem qsum_cons_neg {t : Txn} {p : Txn → Bool} (T : List Txn) (h : p t = false) :
    qsum (t :: T) p = qsum T p := by
  simp [qsum, List.filter_cons, h]

theorem qsum_filter_true (l : List Txn) (p : Txn → Bool) :
    qsum (l.filter p) (fun _ => true) = qsum l p := by
  simp [qsum, List.filter_true]

theorem opening_qty_eq_qsum (l : List Txn) :
    opening_stock_qty l = qsum l (fun _ => true) := by
  simp [opening_stock_qty, qsum, List.filter_true]

theorem qsum_filter (l : List Txn) (p q : Txn → Bool) :
    qsum (l.filter p) q = qsum l (fun t => p t && q t) := by
  induction l with
  | nil => simp [qsum]
  | cons t l ih =>
    cases hp : p t <;> cases hq : q t <;>
      simp [List.filter_cons, hp, hq, qsum_cons, ih]

theorem qsum_congr (l : List Txn) (p q : Txn → Bool) (h : ∀ t ∈ l, p t = q t) :
    qsum l p = qsum l q := by
  rw [qsum, qsum, List.filter_congr h]

/-- Every entry is either strictly before the window start or inside it. -/
theorem qsum_before_during (T : List Txn) (s : Int) :
    qsum T (fun _ => true)
      = qsum T (fun t => t.timestamp < s) + qsum T (fun t => s ≤ t.timestamp) := by
  induction T with
  | nil => simp [qsum]
  | cons t T ih =>
    by_cases h : t.timestamp < s
    · rw [qsum_cons_pos T (by simp), qsum_cons_pos T (by simp [h]),
        qsum_cons_neg T (by simp; omega), ih]
      omega
    · rw [qsum_cons_pos T (by simp), qsum_cons_neg T (by simp [h]),
        qsum_cons_pos T (by simp; omega), ih]
      omega

/-- Every entry belongs to exactly one of the four kind groups used by
the closing-stock computation. -/
theorem qsum_kinds (T : List Txn) :
    qsum T (fun _ => true)
      = qsum T addKind + qsum T (fun t => t.ttype.isIssue)
        + qsum T (fun t => t.ttype.isPriceUpdate)
        + qsum T (fun t => t.ttype.isAdjustment) := by
  induction T with
  | nil => simp [qsum]
  | cons t T ih =>
    rcases t with ⟨tq, tp, tt, ts, tl⟩
    cases tt <;>
      simp [qsum_cons, addKind, TType.isInitial, TType.isPurchase, TType.isIssue,
        TType.isPriceUpdate, TType.isAdjustment, ih] <;>
      omega

theorem qsum_nonpos_of (T : List Txn) (p : Txn → Bool)
    (h : ∀ t ∈ T, p t = true → t.quantity ≤ 0) : qsum T p ≤ 0 := by
  induction T with
  | nil => simp [qsum]
  | cons t T ih =>
    have hT := fun u (hu : u ∈ T) => h u (List.mem_cons_of_mem _ hu)
    cases hp : p t
    · rw [qsum_cons_neg T hp]
      exact ih hT
    · rw [qsum_cons_pos T hp]
      have := h t (List.mem_cons_self _ _) hp
      have := ih hT
      omega

theorem qsum_eq_zero_of (T : List Txn) (p : Txn → Bool)
    (h : ∀ t ∈ T, p t = true → t.quantity = 0) : qsum T p = 0 := by
  induction T with
  | nil => simp [qsum]
  | cons t T ih =>
    have hT := fun u (hu : u ∈ T) => h u (List.mem_cons_of_mem _ hu)
    cases hp : p t
    · rw [qsum_cons_neg T hp]
      exact ih hT
    · rw [qsum_cons_pos T hp, h t (List.mem_cons_self _ _) hp, ih hT]
      omega

/-- When every issue entry carries a Headquarters, Jabi or falsy
location, the three location buckets partition the issue total. -/
theorem qsum_issue_buckets (T : List Txn)
    (h : ∀ t ∈ T, t.ttype = TType.issue →
        t.location = some "Headquarters" ∨ t.location = some "Jabi"
          ∨ locFalsy t.location = true) :
    qsum T (fun t => t.ttype.isIssue)
      = qsum T (fun t => t.ttype.isIssue && locIs "Headquarters" t.location)
        + qsum T (fun t => t.ttype.isIssue && locIs "Jabi" t.location)
        + qsum T (fun t => t.ttype.isIssue && locFalsy t.location) := by
  induction T with
  | nil => simp [qsum]
  | cons t T ih =>
    have hT := ih (fun u hu => h u (List.mem_cons_of_mem _ hu) )
    have ht := h t (List.mem_cons_self _ _)
    rcases t with ⟨tq, tp, tt, ts, tl⟩
    cases tt
    case issue =>
      have hl0 : tl = some "Headquarters" ∨ tl = some "Jabi" ∨ locFalsy tl = true := ht rfl
      rcases hl0 with hl | hl | hl
      · subst hl
        rw [qsum_cons_pos T (by simp [TType.isIssue]),
          qsum_cons_pos T (by simp [TType.isIssue, locIs]),
          qsum_cons_neg T (by simp [TType.isIssue, locIs]),
          qsum_cons_neg T (by simp [TType.isIssue, locFalsy]), hT]
        omega
      · subst hl
        rw [qsum_cons_pos T (by simp [TType.isIssue]),
          qsum_cons_neg T (by simp [TType.isIssue, locIs]),
          qsum_cons_pos T (by simp [TType.isIssue, locIs]),
          qsum_cons_neg T (by simp [TType.isIssue, locFalsy]), hT]
        omega
      · have hl2 : tl = none ∨ tl = some "" := by
          rcases tl with _ | s
          · exact Or.inl rfl
          · right
            simp [locFalsy] at hl
            rw [hl]
        rcases hl2 with hl2 | hl2 <;> subst hl2 <;>
          rw [qsum_cons_pos T (by simp [TType.isIssue]),
            qsum_cons_neg T (by simp [TType.isIssue, locIs]),
            qsum_cons_neg T (by simp [TType.isIssue, locIs]),
            qsum_cons_pos T (by simp [TType.isIssue, locFalsy]), hT] <;>
          omega
    all_goals
      rw [qsum_cons_neg T (by simp [TType.isIssue]),
        qsum_cons_neg T (by simp [TType.isIssue]),
        qsum_cons_neg T (by simp [TType.isIssue]),
        qsum_cons_neg T (by simp [TType.isIssue]), hT]

/-- A one-entry ledger whose issue is recorded against a location that
is neither Headquarters, Jabi, nor missing: the valuation counts it in
no issue bucket, so it leaves the closing stock while still entering the
next window's opening sum. -/
def lagosLedger : List Txn := [⟨-5, none, .issue, 10, some "Lagos"⟩]

/-- C2 counterexample: for the ledger with a single issue to "Lagos",
window (0, 20) immediately followed by window (21, 30), the closing
stock of the first window (0) differs from the opening stock of the
second (-5), so the continuity invariant fails as stated. -/
theorem continuity_claim_cex :
    ¬ ((valuation_over_window lagosLedger 0 20).closing_stock
        = (valuation_over_window lagosLedger 21 30).opening_stock) := by decide

/-- C2 amended: for adjacent windows (the second starting right after
the first ends) the closing stock of the first window equals the opening
stock of the second, provided every issue entry has a non-positive
quantity and a Headquarters, Jabi or missing/empty location, and every
price_update entry carries zero quantity. -/
theorem closing_stock_eq_next_opening_stock (L : List Txn) (s1 e1 s2 e2 : Int)
    (hadj : s2 = e1 + 1) (he : e1 ≤ e2)
    (hneg : ∀ t ∈ L, t.ttype = TType.issue → t.quantity ≤ 0)
    (hloc : ∀ t ∈ L, t.ttype = TType.issue →
        t.location = some "Headquarters" ∨ t.location = some "Jabi"
          ∨ locFalsy t.location = true)
    (hpu : ∀ t ∈ L, t.ttype = TType.price_update → t.quantity = 0) :
    (valuation_over_window L s1 e1).closing_stock
      = (valuation_over_window L s2 e2).opening_stock := by
  have hmemA : ∀ t ∈ txns_during (fetch_entries L e1) s1, t ∈ L := by
    intro t ht
    simp only [txns_during, fetch_entries, List.mem_filter] at ht
    exact ht.1.1
  -- the closing stock, written out from the definition
  have hclose : (valuation_over_window L s1 e1).closing_stock
      = (wac_state (fetch_entries L e1) s1).2
        - (abs (qsum (txns_during (fetch_entries L e1) s1)
              (fun t => t.ttype.isIssue && locIs "Headquarters" t.location))
           + abs (qsum (txns_during (fetch_entries L e1) s1)
              (fun t => t.ttype.isIssue && locIs "Jabi" t.location))
           + abs (qsum (txns_during (fetch_entries L e1) s1)
              (fun t => t.ttype.isIssue && locFalsy t.location)))
        + qsum (txns_during (fetch_entries L e1) s1) (fun t => t.ttype.isAdjustment) := rfl
  -- each issue bucket sums non-positive quantities
  have hb1 : qsum (txns_during (fetch_entries L e1) s1)
      (fun t => t.ttype.isIssue && locIs "Headquarters" t.location) ≤ 0 :=
    qsum_nonpos_of _ _ (fun t ht hp => hneg t (hmemA t ht)
      ((isIssue_iff t.ttype).mp (Bool.and_elim_left hp)))
  have hb2 : qsum (txns_during (fetch_entries L e1) s1)
      (fun t => t.ttype.isIssue && locIs "Jabi" t.location) ≤ 0 :=
    qsum_nonpos_of _ _ (fun t ht hp => hneg t (hmemA t ht)
      ((isIssue_iff t.ttype).mp (Bool.and_elim_left hp)))
  have hb3 : qsum (txns_during (fetch_entries L e1) s1)
      (fun t => t.ttype.isIssue && locFalsy t.location) ≤ 0 :=
    qsum_nonpos_of _ _ (fun t ht hp => hneg t (hmemA t ht)
      ((isIssue_iff t.ttype).mp (Bool.and_elim_left hp)))
  rw [hclose, abs_of_nonpos hb1, abs_of_nonpos hb2, abs_of_nonpos hb3]
  -- the three buckets partition the issue total
  have hbuckets := qsum_issue_buckets (txns_during (fetch_entries L e1) s1)
    (fun t ht hi => hloc t (hmemA t ht) hi)
  -- the quantity component of the replay fold
  have hqty : (wac_state (fetch_entries L e1) s1).2
      = opening_stock_qty (txns_before (fetch_entries L e1) s1)
        + qsum (txns_during (fetch_entries L e1) s1) addKind := wac_foldl_qty _ _ _
  -- price updates carry no quantity
  have hpu0 : qsum (txns_during (fetch_entries L e1) s1)
      (fun t => t.ttype.isPriceUpdate) = 0 :=
    qsum_eq_zero_of _ _ (fun t ht hp => hpu t (hmemA t ht)
      ((isPriceUpdate_iff t.ttype).mp hp))
  -- kind partition of the during entries
  have hkinds := qsum_kinds (txns_during (fetch_entries L e1) s1)
  -- opening of window 1 as a qsum, and the before/during partition
  have hopen1 : opening_stock_qty (txns_before (fetch_entries L e1) s1)
      = qsum (fetch_entries L e1) (fun t => t.timestamp < s1) := by
    rw [opening_qty_eq_qsum, txns_before, qsum_filter_true]
  have hdur : qsum (txns_during (fetch_entries L e1) s1) (fun _ => true)
      = qsum (fetch_entries L e1) (fun t => s1 ≤ t.timestamp) := by
    rw [txns_during, qsum_filter_true]
  have hsplit := qsum_before_during (fetch_entries L e1) s1
  -- both sides reduce to the total of all quantities up to e1
  have hall1 : qsum (fetch_entries L e1) (fun _ => true)
      = qsum L (fun t => t.timestamp ≤ e1) := by
    rw [fetch_entries, qsum_filter_true]
  have hopen2 : (valuation_over_window L s2 e2).opening_stock
      = qsum L (fun t => t.timestamp ≤ e1) := by
    have h0 : (valuation_over_window L s2 e2).opening_stock
        = qsum (fetch_entries L e2) (fun t => t.timestamp < s2) := by
      rw [show (valuation_over_window L s2 e2).opening_stock
            = opening_stock_qty (txns_before (fetch_entries L e2) s2) from rfl,
        opening_qty_eq_qsum, txns_before, qsum_filter_true]
    rw [h0, fetch_entries, qsum_filter]
    refine qsum_congr _ _ _ (fun t _ => ?_)
    cases h1 : decide (t.timestamp ≤ e2) <;> cases h2 : decide (t.timestamp < s2) <;>
      simp_all <;> omega
  rw [hopen2]
  omega

/-- Witness for C2 (amended): the scenario ledger satisfies the data
invariants, and its January closing stock equals the opening stock of
the adjacent February window. -/
theorem closing_stock_eq_next_opening_stock_witness :
    (valuation_over_window demoLedger 1 31).closing_stock
      = (valuation_over_window demoLedger 32 60).opening_stock :=
  closing_stock_eq_next_opening_stock demoLedger 1 31 32 60 rfl (by decide)
    (by decide) (by decide) (by decide)

/-- Lookup in a Python-dict-as-association-list (first matching key). -/
def dlookup (k : String) : List (String × α) → Option α
  | [] => none
  | (k0, v) :: rest => if k0 = k then some v else dlookup k rest

/-- In-place update of the value stored under an existing key. -/
def assocUpdate (k : String) (f : α → α) : List (String × α) → List (String × α)
  | [] => []
  | (k0, v) :: rest =>
    if k0 = k then (k0, f v) :: rest else (k0, v) :: assocUpdate k f rest

/-- One inventory item as `generate_report` sees it: identity, category
(via the joined `Category` row), creation time, and its ledger in store
order (the external ledger collaborator, keyed by item). -/
structure Item where
  id : Int
  item_name : String
  description : Option String
  category_id : Int
  category_name : String
  created_at : Int
  txns : List Txn
  deriving DecidableEq, Repr

/-- The filters dictionary built by the request handler
(`views.py` lines 85-89): category, single item, and location. -/
structure Filters where
  category_id : Option Int
  item_id : Option Int
  location : Option String
  deriving DecidableEq, Repr

/-- Python truthiness of `filters.get(key)` for an optional int. -/
def optTruthy : Option Int → Bool
  | none => false
  | some n => decide (n ≠ 0)

/-- The `item_report_data` dict built per item (`views.py` lines 587-599). -/
structure ItemRecord where
  item_name : String
  description : String
  unit_price : Rat
  category_name : String
  opening_stock : Int
  purchases : Int
  adjustments : Int
  hq_issues : Int
  jabi_issues : Int
  closing_stock : Int
  total_value : Rat
  deriving DecidableEq, Repr

/-- Assembly of `item_report_data` from the item and its valuation. -/
def mk_item_report_data (item : Item) (v : ValRecord) : ItemRecord :=
  { item_name := item.item_name
    description := item.description.getD ""
    unit_price := v.unit_price
    category_name := item.category_name
    opening_stock := v.opening_stock
    purchases := v.purchases
    adjustments := v.adjustments
    hq_issues := v.hq_issues
    jabi_issues := v.jabi_issues
    closing_stock := v.closing_stock
    total_value := v.total_value }

/-- The `totals_template` dict (`views.py` lines 570-578), in source key
order; `.copy()` is the identity on immutable lists. -/
def totals_template : List (String × Rat) :=
  [("opening_stock", 0), ("purchases", 0), ("adjustments", 0),
   ("hq_issues", 0), ("jabi_issues", 0), ("closing_stock", 0), ("total_value", 0)]

/-- The numeric entries of `item_report_data.items()` in dict insertion
order.  The three string-valued entries (item_name, description,
category_name) are omitted: their keys never occur in a totals dict, so
the aggregation loop skips them before any `Decimal(value)` conversion. -/
def record_items (r : ItemRecord) : List (String × Rat) :=
  [("unit_price", r.unit_price),
   ("opening_stock", (r.opening_stock : Rat)),
   ("purchases", (r.purchases : Rat)),
   ("adjustments", (r.adjustments : Rat)),
   ("hq_issues", (r.hq_issues : Rat)),
   ("jabi_issues", (r.jabi_issues : Rat)),
   ("closing_stock", (r.closing_stock : Rat)),
   ("total_value", r.total_value)]

/-- One step of the per-key aggregation (`views.py` lines 610-614):
`if key in totals: totals[key] += Decimal(value)`. -/
def addKey (t : List (String × Rat)) (kv : String × Rat) : List (String × Rat) :=
  if (dlookup kv.1 t).isSome then assocUpdate kv.1 (fun v => v + kv.2) t else t

/-- Accumulation of one item record into a totals dict. -/
def addRecord (t : List (String × Rat)) (r : ItemRecord) : List (String × Rat) :=
  (record_items r).foldl addKey t

/-- The triple `(report_data, category_totals, grand_totals)` returned by
`generate_report`, with Python's insertion-ordered dicts as association
lists. -/
structure Report where
  report_data : List (String × List ItemRecord)
  category_totals : List (String × List (String × Rat))
  grand_totals : List (String × Rat)
  deriving DecidableEq, Repr

/-- The two ways `generate_report` can raise: the explicit
`abort(413, ...)` volume-limit rejection, and an exception escaping the
per-item valuation (there is no handler around the loop). -/
inductive ReportError where
  | volumeLimit (msg : String)
  | itemError (msg : String)
  deriving DecidableEq, Repr

/-- The `abort(413, ...)` message of `views.py` line 560. -/
def volumeMsg : String :=
  "Payload Too Large: The report you requested exceeds 5,000 records. Please apply more specific filters."

/-- Body of the `for item in items` loop (`views.py` lines 601-614) for
one already-valued record: initialize the category bucket from a fresh
copy of the template on first sight, append the record, and accumulate
it into the category totals and the grand totals. -/
def report_step (rec : ItemRecord) (st : Report) : Report :=
  let cat := rec.category_name
  let isNew := (dlookup cat st.report_data).isNone
  let rd0 := if isNew then st.report_data ++ [(cat, [])] else st.report_data
  let ct0 := if isNew then st.category_totals ++ [(cat, totals_template)]
    else st.category_totals
  { report_data := assocUpdate cat (fun l => l ++ [rec]) rd0
    category_totals := assocUpdate cat (fun t => addRecord t rec) ct0
    grand_totals := addRecord st.grand_totals rec }

/-- The item loop of `generate_report`: each iteration first values the
item; an exception raised there propagates out of the loop, because the
source wraps it in no handler. -/
def report_loop (val : Item → Except String ValRecord) :
    List Item → Report → Except String Report
  | [], st => .ok st
  | item :: rest, st =>
    match val item with
    | .error e => .error e
    | .ok v => report_loop val rest (report_step (mk_item_report_data item v) st)

/-- The item query of `generate_report` (`views.py` lines 553-557):
items created up to the window end, optionally narrowed by category and
by a single item id (each filter applied only when truthy). -/
def resolved_items (db : List Item) (end_dt : Int) (filters : Filters) : List Item :=
  let q0 := db.filter (fun i => i.created_at ≤ end_dt)
  let q1 := if optTruthy filters.category_id
    then q0.filter (fun i => some i.category_id = filters.category_id) else q0
  if optTruthy filters.item_id
    then q1.filter (fun i => some i.id = filters.item_id) else q1

/-- `generate_report` (`views.py` lines 549-616), parameterized by the
per-item valuation call so that a valuation failure (malformed item
data) can be expressed; the source's call sits in the loop with no
try/except. -/
def generate_report_with (val : Item → Except String ValRecord)
    (db : List Item) (start_dt end_dt : Int) (filters : Filters) :
    Except ReportError Report :=
  let items := resolved_items db end_dt filters
  if items.length > 5000 then
    .error (.volumeLimit volumeMsg)
  else if items.isEmpty then
    .ok { report_data := [], category_totals := [], grand_totals := [] }
  else
    match report_loop val items
        { report_data := [], category_totals := [],
          grand_totals := totals_template } with
    | .ok st => .ok st
    | .error e => .error (.itemError e)

/-- `generate_report` with the actual valuation engine on each item's
fetched ledger. -/
def generate_report (db : List Item) (start_dt end_dt : Int) (filters : Filters) :
    Except ReportError Report :=
  generate_report_with
    (fun item => .ok (calculate_periodic_wac_valuation
      (fetch_entries item.txns end_dt) start_dt))
    db start_dt end_dt filters

/-- `generate_report_include_weekends` (`views.py` lines 618-624): a
plain wrapper around `generate_report`. -/
def generate_report_include_weekends (db : List Item) (start_dt end_dt : Int)
    (filters : Filters) : Except ReportError Report :=
  generate_report db start_dt end_dt filters

/-- C9: `generate_report_include_weekends` returns exactly the same
triple as `generate_report` for every window and filters; despite its
name it performs no weekend-related filtering, so the development and
production code paths produce identical reports. -/
theorem include_weekends_is_identical (db : List Item) (s e : Int) (f : Filters) :
    generate_report_include_weekends db s e f = generate_report db s e f := rfl

/-- C10: two filter dictionaries that agree on category_id and item_id
produce identical reports for every window; the collected location
filter never influences item resolution or any computed value. -/
theorem location_filter_irrelevant (db : List Item) (s e : Int) (f1 f2 : Filters)
    (hc : f1.category_id = f2.category_id) (hi : f1.item_id = f2.item_id) :
    generate_report db s e f1 = generate_report db s e f2 := by
  rcases f1 with ⟨c1, i1, l1⟩
  rcases f2 with ⟨c2, i2, l2⟩
  obtain rfl : c1 = c2 := hc
  obtain rfl : i1 = i2 := hi
  rfl

/-- An item owning the scenario ledger, used by concrete report runs. -/
def demoItem : Item :=
  { id := 1, item_name := "Biro", description := some "Blue pen", category_id := 1,
    category_name := "Stationery", created_at := 0, txns := demoLedger }

/-- Witness for C10: same category and item filters, different location
filters, identical reports. -/
theorem location_filter_irrelevant_witness :
    generate_report [demoItem] 1 31 ⟨some 1, none, some "Jabi"⟩
      = generate_report [demoItem] 1 31 ⟨some 1, none, none⟩ :=
  location_filter_irrelevant [demoItem] 1 31 _ _ rfl rfl

/-- A minimal item template for bulk construction. -/
def mkItem (n : Nat) : Item :=
  { id := (n : Int), item_name := "Item", description := none, category_id := 1,
    category_name := "General", created_at := 0, txns := [] }

/-- A database resolving to 5001 items under the empty filters. -/
def bigDb : List Item := (List.range 5001).map mkItem

/-- C8: a request whose resolved item set exceeds 5000 items is rejected
with the distinct volume-limit error before any per-item valuation runs
(the result is the same for every valuation oracle, in particular one
that always fails, so no partial computation takes place); and a request
whose resolved set is empty returns the empty triple rather than an
error. -/
theorem volume_limit_and_empty_report :
    (∀ (val : Item → Except String ValRecord) (db : List Item) (s e : Int) (f : Filters),
        (resolved_items db e f).length > 5000 →
        generate_report_with val db s e f = .error (.volumeLimit volumeMsg))
    ∧ ∀ (db : List Item) (s e : Int) (f : Filters),
        resolved_items db e f = [] →
        generate_report db s e f
          = .ok { report_data := [], category_totals := [], grand_totals := [] } := by
  constructor
  · intro val db s e f h
    simp only [generate_report_with]
    rw [if_pos h]
  · intro db s e f h
    simp only [generate_report, generate_report_with, h]
    simp

/-- Witness for C8: a 5001-item database is rejected with the volume
error even under an always-failing valuation oracle, and the empty
database yields the empty triple. -/
theorem volume_limit_and_empty_report_witness :
    generate_report_with (fun _ => .error "unreachable") bigDb 0 0 ⟨none, none, none⟩
        = .error (.volumeLimit volumeMsg)
    ∧ generate_report [] 0 0 ⟨none, none, none⟩
        = .ok { report_data := [], category_totals := [], grand_totals := [] } := by
  constructor
  · apply volume_limit_and_empty_report.1
    have hres : resolved_items bigDb 0 ⟨none, none, none⟩ = bigDb := by
      simp only [resolved_items, optTruthy]
      simp only [Bool.false_eq_true, if_false]
      exact List.filter_eq_self.mpr (by
        intro a ha
        simp only [bigDb, List.mem_map] at ha
        obtain ⟨n, _, rfl⟩ := ha
        simp [mkItem])
    rw [hres]
    simp [bigDb]
  · exact volume_limit_and_empty_report.2 [] 0 0 ⟨none, none, none⟩ rfl

/-- The all-zero valuation record. -/
def zeroVal : ValRecord := ⟨0, 0, 0, 0, 0, 0, 0, 0, 0⟩

/-- Two items of the same category; used for the failure-isolation runs. -/
def itemA : Item :=
  { id := 1, item_name := "A", description := none, category_id := 1,
    category_name := "General", created_at := 0, txns := [] }

/-- The second item, whose data will be treated as malformed. -/
def itemB : Item :=
  { id := 2, item_name := "B", description := none, category_id := 1,
    category_name := "General", created_at := 0, txns := [] }

/-- An oracle that values item B with an exception and every other item
cleanly: the malformed-data scenario of the spec. -/
def cexVal : Item → Except String ValRecord :=
  fun i => if i.item_name = "B" then .error "malformed ledger row" else .ok zeroVal

/-- C3 counterexample: with two resolved items where valuing the second
one raises, the report loop does not skip the failing item and cover the
remaining one - the whole report aborts with the propagated error, so no
report at all is returned. -/
theorem per_item_failure_aborts_report_cex :
    generate_report_with cexVal [itemA, itemB] 0 10 ⟨none, none, none⟩
      = .error (.itemError "malformed ledger row") := by decide

/-- Any failing item anywhere in the loop aborts it. -/
theorem report_loop_error_of_mem (val : Item → Except String ValRecord)
    (items : List Item) (i : Item) (msg : String)
    (hi : i ∈ items) (hv : val i = .error msg) :
    ∀ st : Report, ∃ m, report_loop val items st = .error m := by
  induction items with
  | nil => simp at hi
  | cons a rest ih =>
    intro st
    cases hva : val a with
    | error m => exact ⟨m, by simp [report_loop, hva]⟩
    | ok v =>
      rcases List.mem_cons.mp hi with rfl | hi2
      · rw [hv] at hva
        exact absurd hva (by simp)
      · obtain ⟨m, hm⟩ := ih hi2 (report_step (mk_item_report_data a v) st)
        exact ⟨m, by simp [report_loop, hva, hm]⟩

/-- C3 amended: if valuing any resolved item fails, `generate_report`
returns an error - a per-item failure always aborts the whole report,
because the loop wraps the valuation call in no handler; no partial
report over the remaining items is produced. -/
theorem per_item_failure_aborts_report (val : Item → Except String ValRecord)
    (db : List Item) (s e : Int) (f : Filters) (i : Item) (msg : String)
    (hi : i ∈ resolved_items db e f) (hv : val i = .error msg) :
    ∃ err, generate_report_with val db s e f = .error err := by
  by_cases hlen : (resolved_items db e f).length > 5000
  · refine ⟨.volumeLimit volumeMsg, ?_⟩
    simp only [generate_report_with]
    rw [if_pos hlen]
  · have hne : (resolved_items db e f).isEmpty = false := by
      cases hres : resolved_items db e f with
      | nil => rw [hres] at hi; simp at hi
      | cons a rest => simp
    obtain ⟨m, hm⟩ := report_loop_error_of_mem val (resolved_items db e f) i msg hi hv
      { report_data := [], category_totals := [], grand_totals := totals_template }
    refine ⟨.itemError m, ?_⟩
    simp only [generate_report_with]
    rw [if_neg hlen, if_neg (by simp [hne]), hm]

/-- Witness for C3 (amended): the two-item run with the failing oracle
ends in an error. -/
theorem per_item_failure_aborts_report_witness :
    ∃ err, generate_report_with cexVal [itemA, itemB] 0 10 ⟨none, none, none⟩
      = .error err :=
  per_item_failure_aborts_report cexVal [itemA, itemB] 0 10 ⟨none, none, none⟩
    itemB "malformed ledger row" (by decide) (by decide)

/-- A totals dict in template shape: the seven keys in source order. -/
def tdict (a b c d e f g : Rat) : List (String × Rat) :=
  [("opening_stock", a), ("purchases", b), ("adjustments", c),
   ("hq_issues", d), ("jabi_issues", e), ("closing_stock", f), ("total_value", g)]

theorem totals_template_tdict : totals_template = tdict 0 0 0 0 0 0 0 := rfl

set_option maxHeartbeats 1000000 in
/-- Accumulating a record into a template-shaped dict adds each of the
seven tracked fields pointwise; the unit_price entry has no matching key
and is skipped. -/
theorem addRecord_tdict (a b c d e f g : Rat) (r : ItemRecord) :
    addRecord (tdict a b c d e f g) r
      = tdict (a + (r.opening_stock : Rat)) (b + (r.purchases : Rat))
          (c + (r.adjustments : Rat)) (d + (r.hq_issues : Rat))
          (e + (r.jabi_issues : Rat)) (f + (r.closing_stock : Rat))
          (g + r.total_value) := by
  simp [addRecord, record_items, addKey, dlookup, assocUpdate, tdict]

/-- Value of one numeric field of a record, by key. -/
def fieldOf (k : String) (r : ItemRecord) : Rat :=
  (dlookup k (record_items r)).getD 0

/-- Sum of one numeric field over a list of records. -/
def sumKey (k : String) (rs : List ItemRecord) : Rat :=
  (rs.map (fieldOf k)).sum

/-- Value stored under a key of a totals dict (0 when absent, matching
the skip semantics of the aggregation loop). -/
def dget (k : String) (t : List (String × Rat)) : Rat :=
  (dlookup k t).getD 0

/-- The seven keys of the totals template. -/
def totalsKeys : List String := totals_template.map Prod.fst

/-- Category totals: the accumulation of a record list into a fresh copy
of the zero template, as the source performs per category. -/
def recTotals (rs : List ItemRecord) : List (String × Rat) :=
  rs.foldl addRecord totals_template

theorem sumKey_nil (k : String) : sumKey k [] = 0 := rfl

theorem sumKey_cons (k : String) (r : ItemRecord) (rs : List ItemRecord) :
    sumKey k (r :: rs) = fieldOf k r + sumKey k rs := by
  simp [sumKey]

theorem sumKey_append (k : String) (l1 l2 : List ItemRecord) :
    sumKey k (l1 ++ l2) = sumKey k l1 + sumKey k l2 := by
  simp [sumKey]

theorem sumKey_perm (k : String) {rs rs' : List ItemRecord} (h : rs.Perm rs') :
    sumKey k rs = sumKey k rs' :=
  (h.map (fieldOf k)).sum_eq

theorem sumKey_flatten (k : String) (L : List (List ItemRecord)) :
    sumKey k L.flatten = (L.map (sumKey k)).sum := by
  induction L with
  | nil => simp [sumKey]
  | cons l L ih => simp [List.flatten, sumKey_append, ih]

theorem fieldOf_opening (r : ItemRecord) : fieldOf "opening_stock" r = (r.opening_stock : Rat) := rfl

theorem fieldOf_purchases (r : ItemRecord) : fieldOf "purchases" r = (r.purchases : Rat) := rfl

theorem fieldOf_adjustments (r : ItemRecord) : fieldOf "adjustments" r = (r.adjustments : Rat) := rfl

theorem fieldOf_hq (r : ItemRecord) : fieldOf "hq_issues" r = (r.hq_issues : Rat) := rfl

theorem fieldOf_jabi (r : ItemRecord) : fieldOf "jabi_issues" r = (r.jabi_issues : Rat) := rfl

theorem fieldOf_closing (r : ItemRecord) : fieldOf "closing_stock" r = (r.closing_stock : Rat) := rfl

theorem fieldOf_total (r : ItemRecord) : fieldOf "total_value" r = r.total_value := rfl

/-- Folding records onto any template-shaped dict accumulates the seven
field sums. -/
theorem foldl_addRecord_tdict (rs : List ItemRecord) :
    ∀ a b c d e f g : Rat,
      rs.foldl addRecord (tdict a b c d e f g)
        = tdict (a + sumKey "opening_stock" rs) (b + sumKey "purchases" rs)
            (c + sumKey "adjustments" rs) (d + sumKey "hq_issues" rs)
            (e + sumKey "jabi_issues" rs) (f + sumKey "closing_stock" rs)
            (g + sumKey "total_value" rs) := by
  induction rs with
  | nil => intro a b c d e f g; simp [sumKey]
  | cons r rs ih =>
    intro a b c d e f g
    rw [List.foldl_cons, addRecord_tdict, ih]
    simp only [sumKey_cons, fieldOf_opening, fieldOf_purchases, fieldOf_adjustments,
      fieldOf_hq, fieldOf_jabi, fieldOf_closing, fieldOf_total, ← add_assoc]

/-- Category totals in template shape, with the seven field sums. -/
theorem recTotals_tdict (rs : List ItemRecord) :
    recTotals rs
      = tdict (sumKey "opening_stock" rs) (sumKey "purchases" rs)
          (sumKey "adjustments" rs) (sumKey "hq_issues" rs)
          (sumKey "jabi_issues" rs) (sumKey "closing_stock" rs)
          (sumKey "total_value" rs) := by
  rw [recTotals, totals_template_tdict, foldl_addRecord_tdict]
  simp

theorem recTotals_perm {rs rs' : List ItemRecord} (h : rs.Perm rs') :
    recTotals rs = recTotals rs' := by
  rw [recTotals_tdict, recTotals_tdict, sumKey_perm _ h, sumKey_perm _ h,
    sumKey_perm _ h, sumKey_perm _ h, sumKey_perm _ h, sumKey_perm _ h,
    sumKey_perm _ h]

theorem recTotals_singleton (rec : ItemRecord) :
    recTotals [rec] = addRecord totals_template rec := by
  simp only [recTotals, List.foldl_cons, List.foldl_nil]

theorem recTotals_append_one (rs : List ItemRecord) (rec : ItemRecord) :
    recTotals (rs ++ [rec]) = addRecord (recTotals rs) rec := by
  simp [recTotals, List.foldl_append]

theorem dget_tdict_opening (a b c d e f g : Rat) : dget "opening_stock" (tdict a b c d e f g) = a := rfl

theorem dget_tdict_purchases (a b c d e f g : Rat) : dget "purchases" (tdict a b c d e f g) = b := rfl

theorem dget_tdict_adjustments (a b c d e f g : Rat) : dget "adjustments" (tdict a b c d e f g) = c := rfl

theorem dget_tdict_hq (a b c d e f g : Rat) : dget "hq_issues" (tdict a b c d e f g) = d := rfl

theorem dget_tdict_jabi (a b c d e f g : Rat) : dget "jabi_issues" (tdict a b c d e f g) = e := rfl

theorem dget_tdict_closing (a b c d e f g : Rat) : dget "closing_stock" (tdict a b c d e f g) = f := rfl

theorem dget_tdict_total (a b c d e f g : Rat) : dget "total_value" (tdict a b c d e f g) = g := rfl

/-- Keys outside the template read as zero from a template-shaped dict. -/
theorem dget_tdict_of_not_mem (k : String) (a b c d e f g : Rat)
    (h : ¬ k ∈ totalsKeys) : dget k (tdict a b c d e f g) = 0 := by
  simp only [totalsKeys, totals_template, List.map_cons, List.map_nil,
    List.mem_cons, List.not_mem_nil] at h
  push_neg at h
  obtain ⟨h1, h2, h3, h4, h5, h6, h7, _⟩ := h
  simp [dget, dlookup, tdict, Ne.symm h1, Ne.symm h2, Ne.symm h3, Ne.symm h4,
    Ne.symm h5, Ne.symm h6, Ne.symm h7]

/-- For a template key, reading the category totals gives the field sum. -/
theorem dget_recTotals_of_mem (k : String) (hk : k ∈ totalsKeys) (rs : List ItemRecord) :
    dget k (recTotals rs) = sumKey k rs := by
  rw [recTotals_tdict]
  simp only [totalsKeys, totals_template, List.map_cons, List.map_nil, List.mem_cons,
    List.not_mem_nil, or_false] at hk
  rcases hk with rfl | rfl | rfl | rfl | rfl | rfl | rfl
  · exact dget_tdict_opening _ _ _ _ _ _ _
  · exact dget_tdict_purchases _ _ _ _ _ _ _
  · exact dget_tdict_adjustments _ _ _ _ _ _ _
  · exact dget_tdict_hq _ _ _ _ _ _ _
  · exact dget_tdict_jabi _ _ _ _ _ _ _
  · exact dget_tdict_closing _ _ _ _ _ _ _
  · exact dget_tdict_total _ _ _ _ _ _ _

theorem dlookup_eq_none_iff (k : String) (l : List (String × α)) :
    dlookup k l = none ↔ ∀ p ∈ l, p.1 ≠ k := by
  induction l with
  | nil => simp [dlookup]
  | cons p l ih =>
    rcases p with ⟨k0, v⟩
    by_cases h : k0 = k <;> simp [dlookup, h, ih]

theorem assocUpdate_append_of_not_mem (k : String) (f : α → α) (x : α)
    (l : List (String × α)) (h : ∀ p ∈ l, p.1 ≠ k) :
    assocUpdate k f (l ++ [(k, x)]) = l ++ [(k, f x)] := by
  induction l with
  | nil => simp [assocUpdate]
  | cons p l ih =>
    rcases p with ⟨k0, v⟩
    have hk0 : ¬ k0 = k := h (k0, v) (List.mem_cons_self _ _)
    simp only [List.cons_append, assocUpdate, if_neg hk0, List.cons.injEq, true_and]
    exact ih (fun p hp => h p (List.mem_cons_of_mem _ hp))

/-- Accumulating into the totals of a category commutes with rebuilding
every category's totals from its records. -/
theorem assocUpdate_recTotals_comm (cat : String) (rec : ItemRecord)
    (l : List (String × List ItemRecord)) :
    assocUpdate cat (fun t => addRecord t rec)
        (l.map (fun p => (p.1, recTotals p.2)))
      = (assocUpdate cat (fun rs => rs ++ [rec]) l).map
          (fun p => (p.1, recTotals p.2)) := by
  induction l with
  | nil => rfl
  | cons p l ih =>
    rcases p with ⟨k0, rs⟩
    by_cases h : k0 = cat
    · simp [assocUpdate, h, recTotals_append_one]
    · simp only [List.map_cons, assocUpdate, if_neg h, List.cons.injEq, true_and]
      exact ih

/-- Appending a record to the bucket of a present category permutes the
flattened record list into the old list plus the record at the end. -/
theorem flatten_update_perm (l : List (String × List ItemRecord)) (cat : String)
    (rec : ItemRecord) (h : (dlookup cat l).isSome = true) :
    ((assocUpdate cat (fun rs => rs ++ [rec]) l).map Prod.snd).flatten.Perm
      (((l.map Prod.snd).flatten) ++ [rec]) := by
  induction l with
  | nil => simp [dlookup] at h
  | cons p l ih =>
    rcases p with ⟨k0, rs⟩
    by_cases hk : k0 = cat
    · simp only [assocUpdate, if_pos hk, List.map_cons, List.flatten_cons]
      rw [List.append_assoc, List.append_assoc]
      exact List.Perm.append_left rs List.perm_append_comm
    · have h2 : (dlookup cat l).isSome = true := by
        simpa [dlookup, hk] using h
      simp only [assocUpdate, if_neg hk, List.map_cons, List.flatten_cons]
      rw [List.append_assoc]
      exact List.Perm.append_left rs (ih h2)

/-- Unfolding of `report_step` when the category is new. -/
theorem report_step_new (rec : ItemRecord) (st : Report)
    (h : (dlookup rec.category_name st.report_data).isNone = true) :
    report_step rec st
      = { report_data := assocUpdate rec.category_name (fun l => l ++ [rec])
            (st.report_data ++ [(rec.category_name, [])])
          category_totals := assocUpdate rec.category_name (fun t => addRecord t rec)
            (st.category_totals ++ [(rec.category_name, totals_template)])
          grand_totals := addRecord st.grand_totals rec } := by
  rw [report_step]
  rw [if_pos h, if_pos h]

/-- Unfolding of `report_step` when the category already exists. -/
theorem report_step_old (rec : ItemRecord) (st : Report)
    (h : (dlookup rec.category_name st.report_data).isNone = false) :
    report_step rec st
      = { report_data := assocUpdate rec.category_name (fun l => l ++ [rec]) st.report_data
          category_totals := assocUpdate rec.category_name (fun t => addRecord t rec)
            st.category_totals
          grand_totals := addRecord st.grand_totals rec } := by
  rw [report_step]
  rw [if_neg (by simp [h]), if_neg (by simp [h])]

set_option maxHeartbeats 1000000 in
/-- One loop step preserves the totals invariant: category totals stay
the per-category accumulations of the grouped records, and the grand
totals stay the accumulation of all grouped records. -/
theorem report_step_inv (rec : ItemRecord) (st : Report)
    (h1 : st.category_totals = st.report_data.map (fun p => (p.1, recTotals p.2)))
    (h2 : st.grand_totals = recTotals ((st.report_data.map Prod.snd).flatten)) :
    (report_step rec st).category_totals
        = (report_step rec st).report_data.map (fun p => (p.1, recTotals p.2))
      ∧ (report_step rec st).grand_totals
        = recTotals (((report_step rec st).report_data.map Prod.snd).flatten) := by
  cases hnew : (dlookup rec.category_name st.report_data).isNone with
  | true =>
    have hni : ∀ p ∈ st.report_data, p.1 ≠ rec.category_name :=
      (dlookup_eq_none_iff _ _).mp (Option.isNone_iff_eq_none.mp hnew)
    have hni2 : ∀ p ∈ st.report_data.map (fun p => (p.1, recTotals p.2)),
        p.1 ≠ rec.category_name := by
      intro p hp
      simp only [List.mem_map] at hp
      obtain ⟨q, hq, rfl⟩ := hp
      exact hni q hq
    rw [report_step_new rec st hnew]
    dsimp only
    constructor
    · rw [h1, assocUpdate_append_of_not_mem _ _ _ _ hni2,
        assocUpdate_append_of_not_mem _ _ _ _ hni]
      simp only [List.map_append, List.map_cons, List.map_nil, List.nil_append,
        recTotals_singleton]
    · rw [assocUpdate_append_of_not_mem _ _ _ _ hni, h2, ← recTotals_append_one,
        List.map_append, List.flatten_append]
      simp only [List.map_cons, List.map_nil, List.flatten_cons, List.flatten_nil,
        List.append_nil, List.nil_append]
  | false =>
    have hsome : (dlookup rec.category_name st.report_data).isSome = true := by
      rcases hres : dlookup rec.category_name st.report_data with _ | v
      · rw [hres] at hnew; simp at hnew
      · simp
    rw [report_step_old rec st hnew]
    dsimp only
    constructor
    · rw [h1]
      exact assocUpdate_recTotals_comm _ _ _
    · rw [h2, ← recTotals_append_one]
      exact (recTotals_perm (flatten_update_perm st.report_data rec.category_name
        rec hsome)).symm

/-- A successful run of the loop preserves the totals invariant. -/
theorem report_loop_totals (val : Item → Except String ValRecord) :
    ∀ (items : List Item) (st st' : Report),
      report_loop val items st = .ok st' →
      st.category_totals = st.report_data.map (fun p => (p.1, recTotals p.2)) →
      st.grand_totals = recTotals ((st.report_data.map Prod.snd).flatten) →
      st'.category_totals = st'.report_data.map (fun p => (p.1, recTotals p.2))
        ∧ st'.grand_totals = recTotals ((st'.report_data.map Prod.snd).flatten) := by
  intro items
  induction items with
  | nil =>
    intro st st' h h1 h2
    simp only [report_loop, Except.ok.injEq] at h
    rw [← h]
    exact ⟨h1, h2⟩
  | cons a rest ih =>
    intro st st' h h1 h2
    cases hva : val a with
    | error m => simp [report_loop, hva] at h
    | ok v =>
      simp only [report_loop, hva] at h
      obtain ⟨g1, g2⟩ := report_step_inv (mk_item_report_data a v) st h1 h2
      exact ih _ _ h g1 g2

/-- Totals consistency for any successful run of the parameterized
report generator. -/
theorem generate_report_with_totals (val : Item → Except String ValRecord)
    (db : List Item) (s e : Int) (f : Filters)
    (rd : List (String × List ItemRecord))
    (ct : List (String × List (String × Rat)))
    (gt : List (String × Rat))
    (h : generate_report_with val db s e f = .ok ⟨rd, ct, gt⟩) :
    ct = rd.map (fun p => (p.1, recTotals p.2))
    ∧ (∀ k ∈ totalsKeys, dget k gt = sumKey k ((rd.map Prod.snd).flatten))
    ∧ ∀ k, dget k gt = (ct.map (fun p => dget k p.2)).sum := by
  rw [generate_report_with] at h
  by_cases hlen : (resolved_items db e f).length > 5000
  · rw [if_pos hlen] at h
    exact absurd h (by simp)
  · rw [if_neg hlen] at h
    by_cases hemp : (resolved_items db e f).isEmpty
    · rw [if_pos hemp] at h
      simp only [Except.ok.injEq, Report.mk.injEq] at h
      obtain ⟨hrd, hct, hgt⟩ := h
      subst hrd
      subst hct
      subst hgt
      refine ⟨rfl, ?_, ?_⟩
      · intro k _
        simp [dget, dlookup, sumKey]
      · intro k
        simp [dget, dlookup]
    · rw [if_neg hemp] at h
      cases hloop : report_loop val (resolved_items db e f)
          { report_data := [], category_totals := [],
            grand_totals := totals_template } with
      | error m =>
        rw [hloop] at h
        exact absurd h (by simp)
      | ok st =>
        rw [hloop] at h
        simp only [Except.ok.injEq] at h
        obtain ⟨g1, g2⟩ := report_loop_totals val (resolved_items db e f) _ st hloop
          rfl rfl
        rw [h] at g1 g2
        dsimp only at g1 g2
        refine ⟨g1, ?_, ?_⟩
        · intro k hk
          rw [g2, dget_recTotals_of_mem k hk]
        · intro k
          rw [g1, g2]
          by_cases hk : k ∈ totalsKeys
          · rw [dget_recTotals_of_mem k hk, sumKey_flatten, List.map_map, List.map_map]
            have hfe : (fun (p : String × List ItemRecord) =>
                  dget k ((fun p => (p.1, recTotals p.2)) p).2)
                = fun p => sumKey k p.2 :=
              funext fun p => dget_recTotals_of_mem k hk p.2
            rw [show ((fun p => dget k p.2) ∘ fun (p : String × List ItemRecord) =>
                (p.1, recTotals p.2))
                = fun p => dget k (recTotals p.2) from rfl]
            rw [show (sumKey k ∘ Prod.snd : String × List ItemRecord → Rat)
                = fun p => sumKey k p.2 from rfl]
            congr 1
            exact List.map_congr_left fun p _ => (dget_recTotals_of_mem k hk p.2).symm
          · rw [recTotals_tdict, dget_tdict_of_not_mem k _ _ _ _ _ _ _ hk]
            symm
            apply List.sum_eq_zero
            intro x hx
            simp only [List.map_map, List.mem_map, Function.comp] at hx
            obtain ⟨p, _, rfl⟩ := hx
            rw [recTotals_tdict, dget_tdict_of_not_mem k _ _ _ _ _ _ _ hk]

/-- C4: in every report produced by `generate_report`, each category's
totals equal the accumulation of a fresh copy of the zero template over
exactly that category's records (no shared mutable template instance),
each template field of the grand totals equals the sum of that field
over all per-item records, and every key of the grand totals equals the
sum of that key over all category totals. -/
theorem report_totals_consistency (db : List Item) (s e : Int) (f : Filters)
    (rd : List (String × List ItemRecord))
    (ct : List (String × List (String × Rat)))
    (gt : List (String × Rat))
    (h : generate_report db s e f = .ok ⟨rd, ct, gt⟩) :
    ct = rd.map (fun p => (p.1, recTotals p.2))
    ∧ (∀ k ∈ totalsKeys, dget k gt = sumKey k ((rd.map Prod.snd).flatten))
    ∧ ∀ k, dget k gt = (ct.map (fun p => dget k p.2)).sum :=
  generate_report_with_totals _ db s e f rd ct gt h

/-- The record produced for the scenario item over the January window. -/
def wrec : ItemRecord :=
  { item_name := "Biro", description := "Blue pen", unit_price := 52 / 3,
    category_name := "Stationery", opening_stock := 0, purchases := 150,
    adjustments := 0, hq_issues := 30, jabi_issues := 0, closing_stock := 120,
    total_value := 2080 }

/-- The totals dict that record accumulates to. -/
def wtot : List (String × Rat) := tdict 0 150 0 30 0 120 2080

/-- Witness for C4: the consistency facts instantiated on a concrete
one-item report run. -/
theorem report_totals_consistency_witness :
    [("Stationery", wtot)]
        = [("Stationery", [wrec])].map (fun p => (p.1, recTotals p.2))
    ∧ (∀ k ∈ totalsKeys,
        dget k wtot = sumKey k (([("Stationery", [wrec])].map Prod.snd).flatten))
    ∧ ∀ k, dget k wtot = ([("Stationery", wtot)].map (fun p => dget k p.2)).sum :=
  report_totals_consistency [demoItem] 1 31 ⟨none, none, none⟩
    [("Stationery", [wrec])] [("Stationery", wtot)] wtot (by
      norm_num [generate_report, generate_report_with, resolved_items, optTruthy,
        report_loop, report_step, mk_item_report_data, demoItem, demoLedger,
        calculate_periodic_wac_valuation, fetch_entries, txns_before, txns_during,
        last_known_price, opening_stock_qty, opening_stock_value, initial_stock_value,
        wac_state, wacStep, qsum, priceD, priceKind, priceSourced, locFalsy, locIs,
        TType.isInitial, TType.isPurchase, TType.isIssue, TType.isAdjustment,
        TType.isPriceUpdate, dlookup, assocUpdate, totals_template_tdict,
        addRecord_tdict, wrec, wtot, hq_ne_jabi, hq_ne_empty,
        List.filter_cons, List.foldl_cons, List.foldl_nil, List.find?,
        Report.mk.injEq, ItemRecord.mk.injEq, ValRecord.mk.injEq])

end IMS
